import Mathlib

/-!
Verification of the core of the minerva Lisp interpreter against its
specification.  The development shallowly embeds:

* the NaN-boxed 64-bit tagged value representation of `vm/src/value.rs`
  (machine words are `Nat`, with masks and `% 2^w` made explicit),
* the mark phase of the garbage collector and the `Display` printer of the
  same file (recursive traversals are given explicit fuel, since the real
  heap may contain cycles),
* the allocation threading of heap objects onto the global object list,
* the reader (`src/parser.rs`): lexer and AST builder, where a Rust `panic!`
  or failed `assert!`/`unwrap` is modelled by the distinguished outcome
  `PRes.crashed`, as opposed to an `Err` that is returned to the caller,
* the environment chain of `src/environment.rs`, modelled with an explicit
  store of frames addressed by handles, so that the shared mutability of
  `Rc<RefCell<_Environment>>` is captured by store updates.
-/

/-! ## Tagged value representation (vm/src/value.rs)

A `Value` is one 64-bit machine word, here a `Nat` (all constructors keep it
below `2^64`).  The constants mirror the Rust source exactly. -/

def NAN : Nat := 0x7FF0000000000000

def TAG_MASK : Nat := 0b111 <<< 48

def IMMEDIATE_MASK : Nat := 0b1111 <<< 44

def IMMEDIATE_TAG : Nat := 0b000 <<< 48

def VOID_TAG : Nat := 0b0001 <<< 44

def NIL_TAG : Nat := 0b0010 <<< 44

def BOOL_TAG : Nat := 0b0011 <<< 44

def INT_TAG : Nat := 0b0100 <<< 44

def SYMBOL_TAG : Nat := 0b0101 <<< 44

def TRUE : Nat := 1

def FALSE : Nat := 0

def LAMBDA_TAG : Nat := 0b001 <<< 48

def PAIR_TAG : Nat := 0b010 <<< 48

def VEC_TAG : Nat := 0b011 <<< 48

def STRING_TAG : Nat := 0b100 <<< 48

def HASHMAP_TAG : Nat := 0b101 <<< 48

/-- The `VType` enum of `vm/src/value.rs`. -/
inductive VType where
  | Void
  | Nil
  | Bool
  | Integer
  | Float
  | Symbol
  | Lambda
  | Pair
  | Vec
  | String
  | HashMap
  | BigInt
deriving DecidableEq

/-- One 64-bit word: `pub struct Value(pub u64)`. -/
structure Value where
  val : Nat
deriving DecidableEq

/-- Expansion of the `is_imm!` macro: NaN bits set, pointer tag `000`,
and the given immediate discriminator in bits 44-47. -/
def isImmPred (v : Value) (tag : Nat) : Bool :=
  (v.val &&& NAN == NAN) && (v.val &&& TAG_MASK == IMMEDIATE_TAG)
    && (v.val &&& IMMEDIATE_MASK == tag)

/-- Expansion of the `is_pointer!` macro: NaN bits set and the given 3-bit
pointer tag in bits 48-50. -/
def isPtrPred (v : Value) (tag : Nat) : Bool :=
  (v.val &&& NAN == NAN) && (v.val &&& TAG_MASK == tag)

def Value.is_void (v : Value) : Bool := isImmPred v VOID_TAG

def Value.is_nil (v : Value) : Bool := isImmPred v NIL_TAG

def Value.is_bool (v : Value) : Bool := isImmPred v BOOL_TAG

def Value.is_integer (v : Value) : Bool := isImmPred v INT_TAG

def Value.is_symbol (v : Value) : Bool := isImmPred v SYMBOL_TAG

/-- `is_float`: the word is a double iff its exponent bits are not all ones. -/
def Value.is_float (v : Value) : Bool := !(v.val &&& NAN == NAN)

def Value.is_lambda (v : Value) : Bool := isPtrPred v LAMBDA_TAG

def Value.is_pair (v : Value) : Bool := isPtrPred v PAIR_TAG

def Value.is_vec (v : Value) : Bool := isPtrPred v VEC_TAG

def Value.is_string (v : Value) : Bool := isPtrPred v STRING_TAG

def Value.is_hashmap (v : Value) : Bool := isPtrPred v HASHMAP_TAG

/-- `pub const True: Self = Value::new(NAN | BOOL_TAG | TRUE)`. -/
def Value.TrueV : Value := ⟨NAN ||| BOOL_TAG ||| TRUE⟩

/-- `pub const False: Self = Value::new(NAN | BOOL_TAG | FALSE)`. -/
def Value.FalseV : Value := ⟨NAN ||| BOOL_TAG ||| FALSE⟩

/-- `is_true`: comparison of the two words (derived `PartialEq` on `u64`). -/
def Value.is_true (v : Value) : Bool := decide (v = Value.TrueV)

def Value.is_false (v : Value) : Bool := decide (v = Value.FalseV)

/-- `pub const Void: Self = Value::new(NAN | VOID_TAG)`. -/
def Value.Void : Value := ⟨NAN ||| VOID_TAG⟩

/-- `pub const Nil: Self = Value::new(NAN | NIL_TAG)`. -/
def Value.NilV : Value := ⟨NAN ||| NIL_TAG⟩

/-- `Value::Bool(b)`: `if b { Self::True } else { Self::False }`. -/
def Value.BoolV (b : Bool) : Value := if b then Value.TrueV else Value.FalseV

/-- Rust `i as u32` for `i : i32`: the low 32 bits of the two's complement
representation. -/
def u32ofI32 (i : Int) : Nat := (i % (2 ^ 32 : Int)).toNat

/-- `Value::Integer(i)`: `NAN | INT_TAG | (i as u32 as u64)`. -/
def Value.Integer (i : Int) : Value := ⟨NAN ||| INT_TAG ||| u32ofI32 i⟩

/-- Rust `self.0 as u32 as i32`: reinterpret the low 32 bits as signed. -/
def Value.to_integer (v : Value) : Int :=
  let low : Nat := v.val % 2 ^ 32
  if low < 2 ^ 31 then (low : Int) else (low : Int) - 2 ^ 32

/-- `Value::Float(f)` is `Value::new(f.to_bits())`; a double is identified
with its 64-bit pattern here, so the constructor is the identity on bits. -/
def Value.Float (f : Nat) : Value := ⟨f⟩

/-- `to_float` is `f64::from_bits(self.0)`: the bit pattern itself. -/
def Value.to_float (v : Value) : Nat := v.val

/-- `Value::Symbol(s)`: `NAN | SYMBOL_TAG | (*s as u64)`; the source
`debug_assert!`s that `*s < (1 << 32)`. -/
def Value.Symbol (s : Nat) : Value := ⟨NAN ||| SYMBOL_TAG ||| s⟩

/-- `to_symbol`: `Symbol::new(self.0 as u32 as usize)`, the low 32 bits. -/
def Value.to_symbol (v : Value) : Nat := v.val % 2 ^ 32

/-- Tagging step shared by the five heap constructors
(`Value::Lambda/Pair/Vec/String/HashMap`): given the address `p` of the
freshly allocated object, the value is `NAN | tag | (p & ((1 << 48) - 1))`.
The allocation itself (threading onto the global object list) is modelled
separately by `allocObj` below. -/
def mkPtrValue (tag p : Nat) : Value := ⟨NAN ||| tag ||| (p &&& (2 ^ 48 - 1))⟩

def Value.Lambda (p : Nat) : Value := mkPtrValue LAMBDA_TAG p

def Value.Pair (p : Nat) : Value := mkPtrValue PAIR_TAG p

def Value.Vec (p : Nat) : Value := mkPtrValue VEC_TAG p

def Value.StringV (p : Nat) : Value := mkPtrValue STRING_TAG p

def Value.HashMap (p : Nat) : Value := mkPtrValue HASHMAP_TAG p

/-- `Value::sign_extend(n, at)`: shift left then arithmetic shift right on
`u64`, i.e. keep bits `0..=at` and copy bit `at` into all higher bits. -/
def signExtend (n at_ : Nat) : Nat :=
  let low := n % 2 ^ (at_ + 1)
  if low < 2 ^ at_ then low else low + (2 ^ 64 - 2 ^ (at_ + 1))

/-- `to_pointer`: sign-extend bit 47 of the word through the top bits. -/
def Value.to_pointer (v : Value) : Nat := signExtend v.val 47

/-- `Value::to_type`.  The Rust source checks the ten predicates
`is_void` .. `is_string` in order and hits `unreachable!()` otherwise; in
particular there is no `is_hashmap` case, so a hash-map value falls through
to `unreachable!()`, modelled here as `none`. -/
def Value.to_type (v : Value) : Option VType :=
  if v.is_void then some .Void
  else if v.is_nil then some .Nil
  else if v.is_bool then some .Bool
  else if v.is_integer then some .Integer
  else if v.is_float then some .Float
  else if v.is_symbol then some .Symbol
  else if v.is_lambda then some .Lambda
  else if v.is_pair then some .Pair
  else if v.is_vec then some .Vec
  else if v.is_string then some .String
  else none

/-- Number of the eleven `is_*` type predicates that hold of `v`. -/
def predCount (v : Value) : Nat :=
  v.is_void.toNat + v.is_nil.toNat + v.is_bool.toNat + v.is_integer.toNat
    + v.is_float.toNat + v.is_symbol.toNat + v.is_lambda.toNat
    + v.is_pair.toNat + v.is_vec.toNat + v.is_string.toNat
    + v.is_hashmap.toNat

/-! ## Bit-level helper lemmas -/

theorem land_zero_of_lt_of_mod {x M n : Nat} (hx : x < 2 ^ n) (hM : M % 2 ^ n = 0) :
    x &&& M = 0 := by
  apply Nat.eq_of_testBit_eq
  intro i
  simp only [Nat.testBit_and, Nat.zero_testBit]
  by_cases h : i < n
  · have h1 := Nat.testBit_mod_two_pow M n i
    rw [hM] at h1
    simp [h] at h1
    simp [h1]
  · have h2 : x.testBit i = false :=
      Nat.testBit_lt_two_pow
        (lt_of_lt_of_le hx (Nat.pow_le_pow_right (by norm_num) (le_of_not_lt h)))
    simp [h2]

theorem masked_or {K x M : Nat} (h : x &&& M = 0) : (K ||| x) &&& M = K &&& M := by
  rw [Nat.and_distrib_right, h, Nat.or_zero]

theorem or_low_mod {K x n : Nat} (hK : K % 2 ^ n = 0) (hx : x < 2 ^ n) :
    (K ||| x) % 2 ^ n = x := by
  have h1 : (K ||| x) &&& (2 ^ n - 1) = (K &&& (2 ^ n - 1)) ||| (x &&& (2 ^ n - 1)) :=
    Nat.and_distrib_right _ _ _
  rw [Nat.and_pow_two_sub_one_eq_mod, Nat.and_pow_two_sub_one_eq_mod,
    Nat.and_pow_two_sub_one_eq_mod, hK, Nat.mod_eq_of_lt hx] at h1
  rw [h1, Nat.zero_or]

theorem u32ofI32_lt (i : Int) : u32ofI32 i < 2 ^ 32 := by
  unfold u32ofI32
  omega

theorem low48_lt (p : Nat) : p &&& (2 ^ 48 - 1) < 2 ^ 48 := by
  rw [Nat.and_pow_two_sub_one_eq_mod]
  exact Nat.mod_lt _ (by norm_num)

theorem integer_masks (i : Int) :
    (Value.Integer i).val &&& NAN = NAN ∧
    (Value.Integer i).val &&& TAG_MASK = IMMEDIATE_TAG ∧
    (Value.Integer i).val &&& IMMEDIATE_MASK = INT_TAG := by
  have hx := u32ofI32_lt i
  refine ⟨?_, ?_, ?_⟩ <;>
  · show ((NAN ||| INT_TAG) ||| u32ofI32 i) &&& _ = _
    rw [masked_or (land_zero_of_lt_of_mod (n := 32) hx (by decide))]
    decide

theorem symbol_masks (s : Nat) (hs : s < 2 ^ 32) :
    (Value.Symbol s).val &&& NAN = NAN ∧
    (Value.Symbol s).val &&& TAG_MASK = IMMEDIATE_TAG ∧
    (Value.Symbol s).val &&& IMMEDIATE_MASK = SYMBOL_TAG := by
  refine ⟨?_, ?_, ?_⟩ <;>
  · show ((NAN ||| SYMBOL_TAG) ||| s) &&& _ = _
    rw [masked_or (land_zero_of_lt_of_mod (n := 32) hs (by decide))]
    decide

theorem mkPtrValue_masks (tag p : Nat)
    (h1 : (NAN ||| tag) &&& NAN = NAN) (h2 : (NAN ||| tag) &&& TAG_MASK = tag) :
    (mkPtrValue tag p).val &&& NAN = NAN ∧ (mkPtrValue tag p).val &&& TAG_MASK = tag := by
  constructor
  · show ((NAN ||| tag) ||| (p &&& (2 ^ 48 - 1))) &&& NAN = NAN
    rw [masked_or (land_zero_of_lt_of_mod (n := 48) (low48_lt p) (by decide))]
    exact h1
  · show ((NAN ||| tag) ||| (p &&& (2 ^ 48 - 1))) &&& TAG_MASK = tag
    rw [masked_or (land_zero_of_lt_of_mod (n := 48) (low48_lt p) (by decide))]
    exact h2

theorem predCount_integer (i : Int) :
    predCount (Value.Integer i) = 1 ∧ (Value.Integer i).is_integer = true := by
  obtain ⟨h1, h2, h3⟩ := integer_masks i
  constructor <;>
  · simp only [predCount, Value.is_void, Value.is_nil, Value.is_bool, Value.is_integer,
      Value.is_symbol, Value.is_float, Value.is_lambda, Value.is_pair, Value.is_vec,
      Value.is_string, Value.is_hashmap, isImmPred, isPtrPred, h1, h2, h3]
    decide

theorem predCount_symbol (s : Nat) (hs : s < 2 ^ 32) :
    predCount (Value.Symbol s) = 1 ∧ (Value.Symbol s).is_symbol = true := by
  obtain ⟨h1, h2, h3⟩ := symbol_masks s hs
  constructor <;>
  · simp only [predCount, Value.is_void, Value.is_nil, Value.is_bool, Value.is_integer,
      Value.is_symbol, Value.is_float, Value.is_lambda, Value.is_pair, Value.is_vec,
      Value.is_string, Value.is_hashmap, isImmPred, isPtrPred, h1, h2, h3]
    decide

theorem predCount_float (f : Nat) (hf : ¬(f &&& NAN = NAN)) :
    predCount (Value.Float f) = 1 ∧ (Value.Float f).is_float = true := by
  have h1 : ((Value.Float f).val &&& NAN == NAN) = false := by
    simp [Value.Float, hf]
  constructor <;>
  · simp only [predCount, Value.is_void, Value.is_nil, Value.is_bool, Value.is_integer,
      Value.is_symbol, Value.is_float, Value.is_lambda, Value.is_pair, Value.is_vec,
      Value.is_string, Value.is_hashmap, isImmPred, isPtrPred, h1]
    simp [NAN, TAG_MASK, IMMEDIATE_MASK, IMMEDIATE_TAG, VOID_TAG, NIL_TAG, BOOL_TAG,
      INT_TAG, SYMBOL_TAG, LAMBDA_TAG, PAIR_TAG, VEC_TAG, STRING_TAG, HASHMAP_TAG]

theorem predCount_lambda (p : Nat) :
    predCount (Value.Lambda p) = 1 ∧ (Value.Lambda p).is_lambda = true := by
  obtain ⟨h1, h2⟩ := mkPtrValue_masks LAMBDA_TAG p (by decide) (by decide)
  constructor <;>
  · simp only [predCount, Value.is_void, Value.is_nil, Value.is_bool, Value.is_integer,
      Value.is_symbol, Value.is_float, Value.is_lambda, Value.is_pair, Value.is_vec,
      Value.is_string, Value.is_hashmap, Value.Lambda, isImmPred, isPtrPred, h1, h2]
    simp [NAN, TAG_MASK, IMMEDIATE_MASK, IMMEDIATE_TAG, VOID_TAG, NIL_TAG, BOOL_TAG,
      INT_TAG, SYMBOL_TAG, LAMBDA_TAG, PAIR_TAG, VEC_TAG, STRING_TAG, HASHMAP_TAG]

theorem predCount_pair (p : Nat) :
    predCount (Value.Pair p) = 1 ∧ (Value.Pair p).is_pair = true := by
  obtain ⟨h1, h2⟩ := mkPtrValue_masks PAIR_TAG p (by decide) (by decide)
  constructor <;>
  · simp only [predCount, Value.is_void, Value.is_nil, Value.is_bool, Value.is_integer,
      Value.is_symbol, Value.is_float, Value.is_lambda, Value.is_pair, Value.is_vec,
      Value.is_string, Value.is_hashmap, Value.Pair, isImmPred, isPtrPred, h1, h2]
    simp [NAN, TAG_MASK, IMMEDIATE_MASK, IMMEDIATE_TAG, VOID_TAG, NIL_TAG, BOOL_TAG,
      INT_TAG, SYMBOL_TAG, LAMBDA_TAG, PAIR_TAG, VEC_TAG, STRING_TAG, HASHMAP_TAG]

theorem predCount_vec (p : Nat) :
    predCount (Value.Vec p) = 1 ∧ (Value.Vec p).is_vec = true := by
  obtain ⟨h1, h2⟩ := mkPtrValue_masks VEC_TAG p (by decide) (by decide)
  constructor <;>
  · simp only [predCount, Value.is_void, Value.is_nil, Value.is_bool, Value.is_integer,
      Value.is_symbol, Value.is_float, Value.is_lambda, Value.is_pair, Value.is_vec,
      Value.is_string, Value.is_hashmap, Value.Vec, isImmPred, isPtrPred, h1, h2]
    simp [NAN, TAG_MASK, IMMEDIATE_MASK, IMMEDIATE_TAG, VOID_TAG, NIL_TAG, BOOL_TAG,
      INT_TAG, SYMBOL_TAG, LAMBDA_TAG, PAIR_TAG, VEC_TAG, STRING_TAG, HASHMAP_TAG]

theorem predCount_string (p : Nat) :
    predCount (Value.StringV p) = 1 ∧ (Value.StringV p).is_string = true := by
  obtain ⟨h1, h2⟩ := mkPtrValue_masks STRING_TAG p (by decide) (by decide)
  constructor <;>
  · simp only [predCount, Value.is_void, Value.is_nil, Value.is_bool, Value.is_integer,
      Value.is_symbol, Value.is_float, Value.is_lambda, Value.is_pair, Value.is_vec,
      Value.is_string, Value.is_hashmap, Value.StringV, isImmPred, isPtrPred, h1, h2]
    simp [NAN, TAG_MASK, IMMEDIATE_MASK, IMMEDIATE_TAG, VOID_TAG, NIL_TAG, BOOL_TAG,
      INT_TAG, SYMBOL_TAG, LAMBDA_TAG, PAIR_TAG, VEC_TAG, STRING_TAG, HASHMAP_TAG]

theorem predCount_hashmap (p : Nat) :
    predCount (Value.HashMap p) = 1 ∧ (Value.HashMap p).is_hashmap = true := by
  obtain ⟨h1, h2⟩ := mkPtrValue_masks HASHMAP_TAG p (by decide) (by decide)
  constructor <;>
  · simp only [predCount, Value.is_void, Value.is_nil, Value.is_bool, Value.is_integer,
      Value.is_symbol, Value.is_float, Value.is_lambda, Value.is_pair, Value.is_vec,
      Value.is_string, Value.is_hashmap, Value.HashMap, isImmPred, isPtrPred, h1, h2]
    simp [NAN, TAG_MASK, IMMEDIATE_MASK, IMMEDIATE_TAG, VOID_TAG, NIL_TAG, BOOL_TAG,
      INT_TAG, SYMBOL_TAG, LAMBDA_TAG, PAIR_TAG, VEC_TAG, STRING_TAG, HASHMAP_TAG]

/-! ## IEEE-754 double equality (external collaborator)

Rust compares `f64` values with IEEE-754 semantics: NaN is unequal to
everything (itself included), `+0.0 == -0.0`, and otherwise two doubles are
equal exactly when their bit patterns agree.  Doubles are identified with
their 64-bit patterns throughout. -/

def isNaNBits (f : Nat) : Bool :=
  ((f >>> 52) &&& 0x7FF == 0x7FF) && (f &&& (2 ^ 52 - 1) != 0)

def isZeroBits (f : Nat) : Bool := (f == 0) || (f == 0x8000000000000000)

def f64Eq (a b : Nat) : Bool :=
  !isNaNBits a && !isNaNBits b && (a == b || (isZeroBits a && isZeroBits b))

/-! ## C1: tag exclusivity -/

/-- C1 (counterexample): the claim says `Value::Float(f)` satisfies
`is_float` (and exactly one predicate) for every IEEE-754 double,
specifically including positive and negative infinity and quiet NaNs with
the leading significand bit set.  In the code `is_float` is
`(self.0 & NAN) != NAN`, which is `false` whenever the exponent bits are all
ones, so for `+inf` (bits `0x7FF0000000000000`), `-inf`
(bits `0xFFF0000000000000`) and the canonical quiet NaN
(bits `0x7FF8000000000000`) none of the eleven `is_*` predicates holds. -/
theorem float_infinity_breaks_exclusivity :
    predCount (Value.Float 0x7FF0000000000000) = 0 ∧
    (Value.Float 0x7FF0000000000000).is_float = false ∧
    predCount (Value.Float 0xFFF0000000000000) = 0 ∧
    predCount (Value.Float 0x7FF8000000000000) = 0 := by
  refine ⟨?_, ?_, ?_, ?_⟩ <;> decide

/-- C1 (amended): every Value built by a public constructor satisfies
exactly one of the eleven `is_*` type predicates, with the exception of
`Float(f)` for non-finite `f`: `Float(f)` satisfies `is_float` and no other
predicate exactly when the exponent bits of `f` are not all ones
(`f & NAN != NAN`), which excludes infinities and NaNs. -/
theorem tag_exclusivity_amended :
    predCount Value.Void = 1 ∧ predCount Value.NilV = 1 ∧
    (∀ b, predCount (Value.BoolV b) = 1 ∧ (Value.BoolV b).is_bool = true) ∧
    (∀ i : Int, predCount (Value.Integer i) = 1 ∧ (Value.Integer i).is_integer = true) ∧
    (∀ s : Nat, s < 2 ^ 32 →
      predCount (Value.Symbol s) = 1 ∧ (Value.Symbol s).is_symbol = true) ∧
    (∀ f : Nat, ¬(f &&& NAN = NAN) →
      predCount (Value.Float f) = 1 ∧ (Value.Float f).is_float = true) ∧
    (∀ p, predCount (Value.Lambda p) = 1 ∧ (Value.Lambda p).is_lambda = true) ∧
    (∀ p, predCount (Value.Pair p) = 1 ∧ (Value.Pair p).is_pair = true) ∧
    (∀ p, predCount (Value.Vec p) = 1 ∧ (Value.Vec p).is_vec = true) ∧
    (∀ p, predCount (Value.StringV p) = 1 ∧ (Value.StringV p).is_string = true) ∧
    (∀ p, predCount (Value.HashMap p) = 1 ∧ (Value.HashMap p).is_hashmap = true) := by
  refine ⟨by decide, by decide, ?_, predCount_integer, predCount_symbol,
    predCount_float, predCount_lambda, predCount_pair, predCount_vec,
    predCount_string, predCount_hashmap⟩
  intro b
  cases b <;> exact ⟨by decide, by decide⟩

/-- C1 (witness): the amended theorem applied at symbol id 7 and at the
bits of the double `1.0`. -/
theorem tag_exclusivity_amended_witness :
    predCount (Value.Symbol 7) = 1 ∧ predCount (Value.Float 0x3FF0000000000000) = 1 :=
  ⟨(tag_exclusivity_amended.2.2.2.2.1 7 (by decide)).1,
   (tag_exclusivity_amended.2.2.2.2.2.1 0x3FF0000000000000 (by decide)).1⟩

/-! ## C6: immediate round trips -/

/-- C6: round trips of the immediate constructors and accessors.
For every 32-bit signed integer `i`, `to_integer(Integer(i)) = i`; for every
non-NaN double `f`, `to_float(Float(f))` compares IEEE-equal to `f`; for
every symbol id below `2^32`, `to_symbol(Symbol(s)) = s`; and
`Bool(b).is_true() = b` for both booleans. -/
theorem immediate_round_trips :
    (∀ i : Int, -(2 ^ 31) ≤ i → i < 2 ^ 31 → (Value.Integer i).to_integer = i) ∧
    (∀ f : Nat, isNaNBits f = false → f64Eq ((Value.Float f).to_float) f = true) ∧
    (∀ s : Nat, s < 2 ^ 32 → (Value.Symbol s).to_symbol = s) ∧
    (∀ b : Bool, (Value.BoolV b).is_true = b) := by
  refine ⟨?_, ?_, ?_, ?_⟩
  · intro i hlo hhi
    have hmod : (Value.Integer i).val % 2 ^ 32 = u32ofI32 i := by
      show ((NAN ||| INT_TAG) ||| u32ofI32 i) % 2 ^ 32 = u32ofI32 i
      exact or_low_mod (by decide) (u32ofI32_lt i)
    simp only [Value.to_integer, hmod, u32ofI32]
    split <;> omega
  · intro f hf
    show f64Eq f f = true
    simp [f64Eq, hf]
  · intro s hs
    show ((NAN ||| SYMBOL_TAG) ||| s) % 2 ^ 32 = s
    exact or_low_mod (by decide) hs
  · intro b
    cases b <;> decide

/-- C6 (witness): the round trips at `i = -5`, the bits of `1.0`, symbol id
42, and `true`. -/
theorem immediate_round_trips_witness :
    (Value.Integer (-5)).to_integer = -5 ∧
    f64Eq ((Value.Float 0x3FF0000000000000).to_float) 0x3FF0000000000000 = true ∧
    (Value.Symbol 42).to_symbol = 42 ∧ (Value.BoolV true).is_true = true :=
  ⟨immediate_round_trips.1 (-5) (by decide) (by decide),
   immediate_round_trips.2.1 0x3FF0000000000000 (by decide),
   immediate_round_trips.2.2.1 42 (by decide),
   immediate_round_trips.2.2.2 true⟩

/-! ## Heap objects and the mark phase (vm/src/value.rs)

Heap payloads live behind raw addresses; the heap is a finite association
of addresses to objects, one table per object kind, mirroring the distinct
Rust payload structs.  `HashMap<Value, Value>` iteration is modelled by an
association list of entries.  The `env` field of a `Lambda` is
`Environment`, whose `mark` lives outside `src/`; modelled from the spec:
marking the captured environment marks each bound value (and, recursively,
the parent's), so the object carries the list of all those values and the
model pushes them onto the work list when the lambda is first marked. -/

structure LambdaObj where
  gc : Nat
  envVals : List Value
  consts : List Value
deriving DecidableEq

structure PairObj where
  gc : Nat
  car : Value
  cdr : Value
deriving DecidableEq

structure SVec where
  gc : Nat
  vec : List Value
deriving DecidableEq

structure SString where
  gc : Nat
  str : String
deriving DecidableEq

structure SHashMap where
  gc : Nat
  map : List (Value × Value)
deriving DecidableEq

structure Heap where
  lambdas : List (Nat × LambdaObj)
  pairs : List (Nat × PairObj)
  vecs : List (Nat × SVec)
  strs : List (Nat × SString)
  hms : List (Nat × SHashMap)
deriving DecidableEq

def assocFind {α : Type} (l : List (Nat × α)) (a : Nat) : Option α :=
  match l with
  | [] => none
  | (k, o) :: t => if k = a then some o else assocFind t a

def assocUpdate {α : Type} (l : List (Nat × α)) (a : Nat) (f : α → α) :
    List (Nat × α) :=
  l.map fun ko => if ko.1 = a then (ko.1, f ko.2) else ko

/-- Outcome of running the mark work-list loop with a given amount of fuel:
it either finishes with an updated heap, or hits a Rust panic
(`unreachable!()` in `to_type`, or a dangling pointer), or runs out of
fuel.  The real loop has no fuel; `fuelOut` marks exactly the runs that
take longer than the supplied bound. -/
inductive MarkRes where
  | ok (h : Heap)
  | crashed
  | fuelOut
deriving DecidableEq

/-- The work-list loop of `Value::mark`.  The Rust `Vec` work list pushes
and pops at the end; here the head of the list is the top of the stack, so
pushing `car` then `cdr` yields `cdr :: car :: rest` (the next pop is
`cdr`, as in the source).  Note the `String` and `HashMap` arms: unlike the
`Lambda`/`Pair`/`Vec` arms they do not test the mark bit before acting, and
the `HashMap` arm is unreachable because `to_type` never returns
`VType::HashMap`. -/
def markLoop : Nat → Heap → List Value → MarkRes
  | _, h, [] => .ok h
  | 0, _, _ :: _ => .fuelOut
  | fuel + 1, h, cur :: rest =>
    match cur.to_type with
    | none => .crashed
    | some .Lambda =>
      match assocFind h.lambdas cur.to_pointer with
      | none => .crashed
      | some p =>
        if p.gc &&& 1 != 1 then
          let h' := { h with
            lambdas := assocUpdate h.lambdas cur.to_pointer fun o => { o with gc := o.gc ||| 1 } }
          markLoop fuel h' (p.envVals ++ p.consts.reverse ++ rest)
        else markLoop fuel h rest
    | some .Pair =>
      match assocFind h.pairs cur.to_pointer with
      | none => .crashed
      | some p =>
        if p.gc &&& 1 != 1 then
          let h' := { h with
            pairs := assocUpdate h.pairs cur.to_pointer fun o => { o with gc := o.gc ||| 1 } }
          markLoop fuel h' (p.cdr :: p.car :: rest)
        else markLoop fuel h rest
    | some .Vec =>
      match assocFind h.vecs cur.to_pointer with
      | none => .crashed
      | some p =>
        if p.gc &&& 1 != 1 then
          let h' := { h with
            vecs := assocUpdate h.vecs cur.to_pointer fun o => { o with gc := o.gc ||| 1 } }
          markLoop fuel h' (p.vec.reverse ++ rest)
        else markLoop fuel h rest
    | some .String =>
      match assocFind h.strs cur.to_pointer with
      | none => .crashed
      | some _ =>
        let h' := { h with
          strs := assocUpdate h.strs cur.to_pointer fun o => { o with gc := o.gc ||| 1 } }
        markLoop fuel h' rest
    | some .HashMap =>
      match assocFind h.hms cur.to_pointer with
      | none => .crashed
      | some p =>
        let h' := { h with
          hms := assocUpdate h.hms cur.to_pointer fun o => { o with gc := o.gc ||| 1 } }
        markLoop fuel h' (p.map.foldl (fun acc e => e.2 :: e.1 :: acc) rest)
    | some _ => markLoop fuel h rest

/-- `Value::mark(self)`: run the work list starting from the root. -/
def markFrom (fuel : Nat) (h : Heap) (root : Value) : MarkRes :=
  markLoop fuel h [root]

/-! ## C2: mark on hash maps -/

def hmAddr : Nat := 8

/-- The Value returned by `Value::HashMap` for an object at address 8. -/
def hmValue : Value := Value.HashMap hmAddr

/-- A heap holding a single hash-map object whose map contains the
object's own Value (buildable through `to_hashmap` mutation). -/
def hmHeap : Heap :=
  { lambdas := [], pairs := [], vecs := [], strs := [],
    hms := [(hmAddr, ⟨0, [(Value.NilV, hmValue)]⟩)] }

/-- C2 (code bug): `mark` never handles a hash-map value.  `Value::to_type`
tests `is_void` .. `is_string` and then hits `unreachable!()` — there is no
`is_hashmap` case — so marking any hash-map root (here: one whose map even
contains itself, the cyclic shape the claim quantifies over) aborts the
process at once instead of marking and skipping, no matter how much fuel
the loop is given.  The `VType::HashMap` arm inside `mark` is dead code. -/
theorem mark_hashmap_root_crashes :
    ∀ fuel : Nat, markFrom (fuel + 1) hmHeap hmValue = MarkRes.crashed := by
  intro fuel
  have ht : hmValue.to_type = none := by decide
  unfold markFrom
  simp [markLoop, ht]

/-! ## The printer (`impl fmt::Display for Value`)

The symbol interner (`get_value`) and the formatting of `f64` with `{}` are
external collaborators, passed in as functions `intr` (partial: `unwrap`
on a missing symbol is a panic, conflated with `none` here) and `ffmt`.
The routine recurses through `car`s and walks the `cdr` spine with a loop;
both can diverge on cyclic heaps, so the model takes fuel, `none` standing
for a run that does not complete (missing payload, missing symbol, or fuel
exhausted). -/

mutual

def displayV (intr : Nat → Option String) (ffmt : Nat → String)
    (fuel : Nat) (h : Heap) (v : Value) : Option String :=
  match fuel with
  | 0 => none
  | fuel + 1 =>
    if v.is_float then some (ffmt v.to_float)
    else if v.is_integer then some (toString v.to_integer)
    else if v.is_symbol then intr v.to_symbol
    else if v.is_true then some "#t"
    else if v.is_false then some "#f"
    else if v.is_nil then some "()"
    else if v.is_void then some ""
    else if v.is_lambda then some "#<procedure>"
    else if v.is_pair then
      match assocFind h.pairs v.to_pointer with
      | none => none
      | some p => do
        let s ← displayV intr ffmt fuel h p.car
        let t ← displayTail intr ffmt fuel h p.cdr
        some ("(" ++ s ++ t)
    else if v.is_string then
      match assocFind h.strs v.to_pointer with
      | none => none
      | some s => some ("\"" ++ s.str ++ "\"")
    else if v.is_vec then
      match assocFind h.vecs v.to_pointer with
      | none => none
      | some p => do
        let s ← displayElems intr ffmt fuel h p.vec
        some ("#(" ++ s ++ ")")
    else some "debug: "
termination_by fuel

def displayTail (intr : Nat → Option String) (ffmt : Nat → String)
    (fuel : Nat) (h : Heap) (c : Value) : Option String :=
  match fuel with
  | 0 => none
  | fuel + 1 =>
    if c.is_pair then
      match assocFind h.pairs c.to_pointer with
      | none => none
      | some p => do
        let s ← displayV intr ffmt fuel h p.car
        let t ← displayTail intr ffmt fuel h p.cdr
        some (" " ++ s ++ t)
    else if c.is_nil then some ")"
    else do
      let s ← displayV intr ffmt fuel h c
      some (" . " ++ s ++ ")")
termination_by fuel

def displayElems (intr : Nat → Option String) (ffmt : Nat → String)
    (fuel : Nat) (h : Heap) (l : List Value) : Option String :=
  match fuel with
  | 0 => none
  | fuel + 1 =>
    match l with
    | [] => some ""
    | [v] => displayV intr ffmt fuel h v
    | v :: rest => do
      let s ← displayV intr ffmt fuel h v
      let t ← displayElems intr ffmt fuel h rest
      some (s ++ ", " ++ t)
termination_by fuel

end

theorem hashmap_not_true (p : Nat) : (Value.HashMap p).is_true = false := by
  obtain ⟨h1, h2⟩ := mkPtrValue_masks HASHMAP_TAG p (by decide) (by decide)
  apply decide_eq_false
  intro he
  have h3 := congrArg (fun w => w.val &&& TAG_MASK) he
  simp only at h3
  rw [show (Value.HashMap p).val &&& TAG_MASK = HASHMAP_TAG from h2] at h3
  exact absurd h3 (by decide)

theorem hashmap_not_false (p : Nat) : (Value.HashMap p).is_false = false := by
  obtain ⟨h1, h2⟩ := mkPtrValue_masks HASHMAP_TAG p (by decide) (by decide)
  apply decide_eq_false
  intro he
  have h3 := congrArg (fun w => w.val &&& TAG_MASK) he
  simp only at h3
  rw [show (Value.HashMap p).val &&& TAG_MASK = HASHMAP_TAG from h2] at h3
  exact absurd h3 (by decide)

/-! ## C10: displaying a hash map -/

/-- C10: the `Display` dispatch has no hash-map branch, so a hash-map value
falls through every `is_*` test to the final `else`, which prints exactly
the literal text `debug: `, whatever the map contains, for any interner,
float formatter, heap, and any positive amount of fuel. -/
theorem display_hashmap_debug :
    ∀ (intr : Nat → Option String) (ffmt : Nat → String) (fuel : Nat)
      (h : Heap) (p : Nat),
      displayV intr ffmt (fuel + 1) h (Value.HashMap p) = some "debug: " := by
  intro intr ffmt fuel h p
  obtain ⟨h1, h2⟩ := mkPtrValue_masks HASHMAP_TAG p (by decide) (by decide)
  have hpred : ∀ t : Nat, t &&& TAG_MASK = t → t ≠ HASHMAP_TAG →
      isPtrPred (Value.HashMap p) t = false := by
    intro t ht hne
    simp only [isPtrPred, Value.HashMap, h1, h2]
    simp [Ne.symm hne]
  have himm : ∀ t : Nat, isImmPred (Value.HashMap p) t = false := by
    intro t
    simp only [isImmPred, Value.HashMap, h1, h2]
    simp [show HASHMAP_TAG ≠ IMMEDIATE_TAG by decide]
  have hfl : (Value.HashMap p).is_float = false := by
    simp only [Value.is_float, Value.HashMap, h1]
    simp
  rw [displayV]
  simp only [hfl, Value.is_integer, Value.is_symbol, Value.is_nil, Value.is_void,
    Value.is_lambda, Value.is_pair, Value.is_vec, Value.is_string, himm,
    hpred LAMBDA_TAG (by decide) (by decide), hpred PAIR_TAG (by decide) (by decide),
    hpred VEC_TAG (by decide) (by decide), hpred STRING_TAG (by decide) (by decide),
    hashmap_not_true, hashmap_not_false, Bool.false_eq_true, if_false]

/-! ## C8: allocation threading onto the global object list

Each allocator (`Value::Lambda/Pair/Vec/String/HashMap`) runs the same
protocol: `let next = get_head();` store `next` in the new object's header,
`set_head(p, ty)` to publish the new object.  `get_head`/`set_head` live in
the crate root, which is not part of `src/`; modelled from the spec
(section 4.2 allocation protocol): the global head names the most recently
allocated object (0 for the empty list), each header's `next` field holds
the previous head, and the type tag is recorded alongside.  Addresses are
abstract: the `n`-th allocation of a run gets address `n`. -/

structure GcObj where
  next : Nat
  ty : VType
deriving DecidableEq

structure GcState where
  head : Nat
  objs : List (Nat × GcObj)
deriving DecidableEq

def emptyGc : GcState := ⟨0, []⟩

/-- One allocation: record the old head in the new header, publish the new
object (at the fresh address `objs.length + 1`) as the head. -/
def allocObj (st : GcState) (ty : VType) : GcState × Nat :=
  let a := st.objs.length + 1
  ({ head := a, objs := (a, ⟨st.head, ty⟩) :: st.objs }, a)

def allocAll (kinds : List VType) (st : GcState) : GcState :=
  kinds.foldl (fun s k => (allocObj s k).1) st

/-- The list `[n, n-1, ..., 1]`. -/
def descList : Nat → List Nat
  | 0 => []
  | k + 1 => (k + 1) :: descList k

/-- Walk the global object list: start from an address (0 is the null
pointer) and follow each header's `next` link. -/
def walkChain (st : GcState) : Nat → Nat → List Nat
  | 0, _ => []
  | _ + 1, 0 => []
  | f + 1, a =>
    a :: (match assocFind st.objs a with
          | none => []
          | some o => walkChain st f o.next)

def walkAll (st : GcState) : List Nat := walkChain st st.objs.length st.head

def canonObjs (n : Nat) (objs : List (Nat × GcObj)) : Prop :=
  objs.map Prod.fst = descList n ∧
    ∀ j, j < n → ∃ t, assocFind objs (j + 1) = some ⟨j, t⟩

theorem descList_length (n : Nat) : (descList n).length = n := by
  induction n with
  | zero => rfl
  | succ k ih => simp [descList, ih]

theorem mem_descList (n a : Nat) : a ∈ descList n ↔ 1 ≤ a ∧ a ≤ n := by
  induction n with
  | zero => simp [descList]; omega
  | succ k ih => simp [descList, ih]; omega

theorem assocFind_isSome_iff_mem {α : Type} (l : List (Nat × α)) (a : Nat) :
    (assocFind l a).isSome = true ↔ a ∈ l.map Prod.fst := by
  induction l with
  | nil => simp [assocFind]
  | cons ko t ih =>
    by_cases h : ko.1 = a
    · simp [assocFind, h]
    · simp [assocFind, h, ih, Ne.symm h]

theorem alloc_canon (st : GcState) (k : VType)
    (hh : st.head = st.objs.length) (hc : canonObjs st.objs.length st.objs) :
    (allocObj st k).1.head = (allocObj st k).1.objs.length ∧
      canonObjs (allocObj st k).1.objs.length (allocObj st k).1.objs := by
  obtain ⟨hmap, hfind⟩ := hc
  refine ⟨by simp [allocObj], ?_, ?_⟩
  · simp only [allocObj, List.map_cons, List.length_cons]
    rw [hmap]
    rfl
  · intro j hj
    simp only [allocObj, List.length_cons] at hj ⊢
    by_cases hje : j = st.objs.length
    · subst hje
      refine ⟨k, ?_⟩
      simp [assocFind, hh]
    · have hjlt : j < st.objs.length := by omega
      obtain ⟨t, hft⟩ := hfind j hjlt
      refine ⟨t, ?_⟩
      simp only [assocFind]
      rw [if_neg (by omega), hft]

theorem allocAll_canon (kinds : List VType) :
    ∀ st : GcState, st.head = st.objs.length → canonObjs st.objs.length st.objs →
      (allocAll kinds st).head = (allocAll kinds st).objs.length ∧
        canonObjs (allocAll kinds st).objs.length (allocAll kinds st).objs ∧
        (allocAll kinds st).objs.length = st.objs.length + kinds.length := by
  induction kinds with
  | nil => intro st hh hc; exact ⟨hh, hc, by simp [allocAll]⟩
  | cons k rest ih =>
    intro st hh hc
    obtain ⟨hh', hc'⟩ := alloc_canon st k hh hc
    have hstep : allocAll (k :: rest) st = allocAll rest (allocObj st k).1 := rfl
    rw [hstep]
    obtain ⟨a, b, c⟩ := ih (allocObj st k).1 hh' hc'
    refine ⟨a, b, ?_⟩
    rw [c]
    simp [allocObj]
    omega

theorem walk_canon (st : GcState) :
    ∀ m fuel : Nat, (∀ j, j < m → ∃ t, assocFind st.objs (j + 1) = some ⟨j, t⟩) →
      m ≤ fuel → walkChain st fuel m = descList m := by
  intro m
  induction m with
  | zero =>
    intro fuel _ _
    cases fuel <;> rfl
  | succ k ih =>
    intro fuel hfind hle
    cases fuel with
    | zero => omega
    | succ f =>
      obtain ⟨t, hft⟩ := hfind k (by omega)
      show (k + 1) :: _ = (k + 1) :: descList k
      rw [hft]
      exact congrArg _ (ih f (fun j hj => hfind j (by omega)) (by omega))

/-- C8: after any sequence of `N` allocations starting from the empty
global list, walking the list from the published head via each header's
`next` link visits exactly the `N` allocated objects, most recently
allocated first: the walk is `[N, N-1, ..., 1]` (the `n`-th allocation has
address `n`), its length is `N`, and an address is visited iff an object
was allocated at it. -/
theorem allocation_threading_lifo :
    ∀ kinds : List VType,
      walkAll (allocAll kinds emptyGc) = descList kinds.length ∧
      (walkAll (allocAll kinds emptyGc)).length = kinds.length ∧
      (∀ a, a ∈ walkAll (allocAll kinds emptyGc) ↔
        (assocFind (allocAll kinds emptyGc).objs a).isSome = true) := by
  intro kinds
  obtain ⟨hh, hc, hlen⟩ :=
    allocAll_canon kinds emptyGc rfl ⟨rfl, by intro j hj; simp [emptyGc] at hj⟩
  have hlen0 : (allocAll kinds emptyGc).objs.length = kinds.length := by
    simpa [emptyGc] using hlen
  have hwalk : walkAll (allocAll kinds emptyGc) = descList kinds.length := by
    unfold walkAll
    rw [hh, hlen0]
    exact walk_canon _ _ _ (hlen0 ▸ hc.2) le_rfl
  refine ⟨hwalk, by rw [hwalk, descList_length], ?_⟩
  intro a
  rw [hwalk, assocFind_isSome_iff_mem, hc.1, hlen0]

/-! ## The reader (src/parser.rs)

The lexer turns a character list into tokens; the AST builder turns tokens
into `Object` values.  Outcomes distinguish an `Err(ParseError)` returned
to the caller (`err`) from a Rust `panic!`/failed `assert!`/`unwrap()`
(`crashed`); `out` marks fuel exhaustion in the fuelled functions and never
occurs on the concrete runs below. -/

inductive ParseError where
  | EOF
  | Input
  | Token
deriving DecidableEq

inductive PRes (α : Type) where
  | ok (a : α)
  | err (e : ParseError)
  | crashed
  | out
deriving DecidableEq

/-- Modelled from the spec: the `Object` enum of the tree-walking
interpreter lives in `object.rs`, which is not under `src/`.  The parser
and environment need exactly: nil, booleans, arbitrary-precision numbers
(`BigInt`, modelled as `Int`), strings, symbols, pairs built by
`Object::cons`, and primitive procedures (installed by `init_env`). -/
inductive Object where
  | Nil
  | Bool (b : Bool)
  | Number (n : Int)
  | Str (s : String)
  | Symbol (s : String)
  | cons (car cdr : Object)
  | Primitive (name : String) (args : Option Nat)
deriving DecidableEq

/-- Modelled from the spec: `Object::push` (in the missing `object.rs`)
appends an element at the end of a proper list; `parse_expr` reads tokens
left to right into a proper list with it.  On a non-list head the model
returns the object unchanged (the builder only ever pushes onto lists). -/
def Object.push : Object → Object → Object
  | .Nil, x => .cons x .Nil
  | .cons a d, x => .cons a (Object.push d x)
  | o, _ => o

/-- `i.parse::<BigInt>().unwrap()` on the digit strings produced by the
lexer: the decimal value. -/
def parseBigInt (s : String) : Int :=
  (s.data.foldl (fun a c => a * 10 + (c.toNat - 48)) 0 : Nat)

/-- The `Token` enum of `src/parser.rs`. -/
inductive Token where
  | LeftParen
  | RightParen
  | Quote
  | Nil
  | Bool (b : Bool)
  | Str (s : String)
  | Number (s : String)
  | Symbol (s : String)
deriving DecidableEq

/-- Rust `char::is_whitespace`, restricted to the ASCII whitespace the
grammar and the claims exercise. -/
def isWs (c : Char) : Bool := c = ' ' || c = '\t' || c = '\n' || c = '\r'

/-- The `'0' ... '9'` range patterns of the lexer. -/
def isDigit (c : Char) : Bool := '0' ≤ c && c ≤ '9'

/-- `fn is_symbol_char(c: char, start: bool)`. -/
def is_symbol_char (c : Char) (start : Bool) : Bool :=
  if ('a' ≤ c && c ≤ 'z') || ('A' ≤ c && c ≤ 'Z')
      || c = '-' || c = '+' || c = '!' || c = '$' || c = '%' || c = '&'
      || c = '*' || c = '/' || c = ':' || c = '<' || c = '=' || c = '>'
      || c = '?' || c = '~' || c = '_' || c = '^' then
    true
  else if isDigit c then !start
  else false

/-- `Parser::parse_string`, after the opening quote: read until the
matching unescaped quote; `\n`/`\t` escape, any other escaped character is
itself; end of input is `Err(EOF)`. -/
def parse_string : List Char → String → PRes (Token × List Char)
  | [], _ => .err .EOF
  | '\\' :: rest, buf =>
    match rest with
    | [] => .err .EOF
    | c :: rest2 =>
      if c = 'n' then parse_string rest2 (buf.push '\n')
      else if c = 't' then parse_string rest2 (buf.push '\t')
      else parse_string rest2 (buf.push c)
  | '"' :: rest, buf => .ok (.Str buf, rest)
  | c :: rest, buf => parse_string rest (buf.push c)

/-- The second half of `Parser::parse_bool`: after `#t`/`#f` the next
character must be whitespace (consumed) or a paren (re-emitted); anything
else, including end of input, is a `panic!`. -/
def afterBool (b : Bool) : List Char → PRes (List Token × List Char)
  | [] => .crashed
  | c :: rest =>
    if isWs c then .ok ([.Bool b], rest)
    else if c = '(' then .ok ([.Bool b, .LeftParen], rest)
    else if c = ')' then .ok ([.Bool b, .RightParen], rest)
    else .crashed

/-- `Parser::parse_bool`, after the `#`. -/
def parse_bool : List Char → PRes (List Token × List Char)
  | [] => .err .EOF
  | c :: rest =>
    if c = 't' then afterBool true rest
    else if c = 'f' then afterBool false rest
    else .err .Input

/-- `Parser::parse_number`, with the first digit already in `buf`:
whitespace ends the token, digits extend it, a paren ends it and is
re-emitted, end of input ends it, anything else is `Err(Input)`. -/
def parse_number : List Char → String → PRes (List Token × List Char)
  | [], buf => .ok ([.Number buf], [])
  | c :: rest, buf =>
    if isWs c then .ok ([.Number buf], rest)
    else if isDigit c then parse_number rest (buf.push c)
    else if c = '(' then .ok ([.Number buf, .LeftParen], rest)
    else if c = ')' then .ok ([.Number buf, .RightParen], rest)
    else .err .Input

/-- The `nil` reclassification applied by two of the three exits of
`parse_symbol` (whitespace and close paren — not end of input). -/
def nilOrSymbol (buf : String) : Token :=
  if buf = "nil" then .Nil else .Symbol buf

/-- `Parser::parse_symbol`, with the first character already in `buf`.
Note the differences from `parse_number`: a `(` falls into the catch-all
`Err(Input)` instead of being re-emitted, and the end-of-input exit pushes
`Symbol(buf)` without the `nil` check. -/
def parse_symbol : List Char → String → PRes (List Token × List Char)
  | [], buf => .ok ([.Symbol buf], [])
  | c :: rest, buf =>
    if is_symbol_char c false then parse_symbol rest (buf.push c)
    else if isWs c then .ok ([nilOrSymbol buf], rest)
    else if c = ')' then .ok ([nilOrSymbol buf, .RightParen], rest)
    else .err .Input

def consTok (t : Token) : PRes (List Token) → PRes (List Token)
  | .ok ts => .ok (t :: ts)
  | .err e => .err e
  | .crashed => .crashed
  | .out => .out

def appTok (ts : List Token) : PRes (List Token) → PRes (List Token)
  | .ok ts2 => .ok (ts ++ ts2)
  | .err e => .err e
  | .crashed => .crashed
  | .out => .out

/-- The dispatch loop of `Parser::_parse`.  One unit of fuel per loop
iteration (each iteration consumes at least the dispatch character, so the
input length is always enough fuel).  A character that can start no token
is a `panic!` in the source. -/
def lexLoop : Nat → List Char → PRes (List Token)
  | 0, [] => .ok []
  | 0, _ :: _ => .out
  | _ + 1, [] => .ok []
  | fuel + 1, c :: rest =>
    if c = '(' then consTok .LeftParen (lexLoop fuel rest)
    else if c = ')' then consTok .RightParen (lexLoop fuel rest)
    else if c = '\'' then consTok .Quote (lexLoop fuel rest)
    else if c = '"' then
      match parse_string rest "" with
      | .ok (t, rest2) => consTok t (lexLoop fuel rest2)
      | .err e => .err e
      | .crashed => .crashed
      | .out => .out
    else if c = '#' then
      match parse_bool rest with
      | .ok (ts, rest2) => appTok ts (lexLoop fuel rest2)
      | .err e => .err e
      | .crashed => .crashed
      | .out => .out
    else if isWs c then lexLoop fuel rest
    else if isDigit c then
      match parse_number rest (String.singleton c) with
      | .ok (ts, rest2) => appTok ts (lexLoop fuel rest2)
      | .err e => .err e
      | .crashed => .crashed
      | .out => .out
    else if is_symbol_char c true then
      match parse_symbol rest (String.singleton c) with
      | .ok (ts, rest2) => appTok ts (lexLoop fuel rest2)
      | .err e => .err e
      | .crashed => .crashed
      | .out => .out
    else .crashed

/-- `Parser::parse`: lex a whole source string. -/
def lexRun (s : String) : PRes (List Token) := lexLoop s.data.length s.data

/-! ## AST builder (`Token::build_ast`)

`parse_quote` and `parse_expr` consume from a shared token iterator; fuel
decreases at every call (one token list element is consumed per unit, so
`tokens.length + 1` is always enough).  `tokens.next().unwrap()` on an
exhausted iterator, a token with no arm (`panic!("unexpected token in
quote")`), `assert!(parens == 0)` failing on a missing close paren, and the
top-level `panic!("unexpected right paren")` are all `crashed`. -/

mutual

def parse_quote : Nat → List Token → PRes (Object × List Token)
  | 0, _ => .out
  | _ + 1, [] => .crashed
  | fuel + 1, t :: rest =>
    match t with
    | .Symbol s => .ok (.cons (.Symbol "quote") (.cons (.Symbol s) .Nil), rest)
    | .Number i => .ok (.Number (parseBigInt i), rest)
    | .Str s => .ok (.Str s, rest)
    | .LeftParen =>
      match parse_expr fuel rest .Nil with
      | .ok (l, rest2) => .ok (.cons (.Symbol "quote") (.cons l .Nil), rest2)
      | .err e => .err e
      | .crashed => .crashed
      | .out => .out
    | _ => .crashed

def parse_expr : Nat → List Token → Object → PRes (Object × List Token)
  | 0, _, _ => .out
  | _ + 1, [], _ => .crashed
  | fuel + 1, t :: rest, acc =>
    match t with
    | .LeftParen =>
      match parse_expr fuel rest .Nil with
      | .ok (l, rest2) => parse_expr fuel rest2 (acc.push l)
      | .err e => .err e
      | .crashed => .crashed
      | .out => .out
    | .RightParen => .ok (acc, rest)
    | .Quote =>
      match parse_quote fuel rest with
      | .ok (o, rest2) => parse_expr fuel rest2 (acc.push o)
      | .err e => .err e
      | .crashed => .crashed
      | .out => .out
    | .Nil => parse_expr fuel rest (acc.push .Nil)
    | .Bool b => parse_expr fuel rest (acc.push (.Bool b))
    | .Str s => parse_expr fuel rest (acc.push (.Str s))
    | .Symbol s => parse_expr fuel rest (acc.push (.Symbol s))
    | .Number i => parse_expr fuel rest (acc.push (.Number (parseBigInt i)))

end

def consObj (o : Object) : PRes (List Object) → PRes (List Object)
  | .ok l => .ok (o :: l)
  | .err e => .err e
  | .crashed => .crashed
  | .out => .out

/-- The top-level loop of `Token::build_ast`. -/
def build_ast : Nat → List Token → PRes (List Object)
  | 0, _ => .out
  | _ + 1, [] => .ok []
  | fuel + 1, t :: rest =>
    match t with
    | .LeftParen =>
      match parse_expr fuel rest .Nil with
      | .ok (l, rest2) => consObj l (build_ast fuel rest2)
      | .err e => .err e
      | .crashed => .crashed
      | .out => .out
    | .RightParen => .crashed
    | .Quote =>
      match parse_quote fuel rest with
      | .ok (o, rest2) => consObj o (build_ast fuel rest2)
      | .err e => .err e
      | .crashed => .crashed
      | .out => .out
    | .Nil => consObj .Nil (build_ast fuel rest)
    | .Bool b => consObj (.Bool b) (build_ast fuel rest)
    | .Number i => consObj (.Number (parseBigInt i)) (build_ast fuel rest)
    | .Str s => consObj (.Str s) (build_ast fuel rest)
    | .Symbol s => consObj (.Symbol s) (build_ast fuel rest)

/-- `Token::build_ast(tokens)` with enough fuel for the whole list. -/
def buildAST (tokens : List Token) : PRes (List Object) :=
  build_ast (tokens.length + 1) tokens

/-! ## C3: quoting -/

/-- C3 (counterexample): `Quote` followed by the datum `1` does not produce
the list `(quote 1)`: `parse_quote` returns numbers (and strings) bare,
without the `(quote …)` wrapper. -/
theorem quote_number_not_wrapped :
    buildAST [Token.Quote, Token.Number "1"] = PRes.ok [Object.Number 1] ∧
    PRes.ok [Object.Number 1] ≠
      PRes.ok [Object.cons (Object.Symbol "quote")
        (Object.cons (Object.Number 1) Object.Nil)] := by
  constructor <;> decide

/-- C3 (amended): `Quote` followed by a `Symbol` produces the two-element
list `(quote sym)`; followed by `LeftParen` the entire list is read first
and then wrapped as `(quote list)`; followed by a `Number` or a `String`
the bare value is produced with no wrapper; any other following token
(`Bool`, `Nil`, `Quote`, `RightParen`, or end of the token stream) panics. -/
theorem parse_quote_amended :
    (∀ (fuel : Nat) (s : String) (rest : List Token),
      parse_quote (fuel + 1) (Token.Symbol s :: rest) =
        .ok (.cons (.Symbol "quote") (.cons (.Symbol s) .Nil), rest)) ∧
    (∀ (fuel : Nat) (n : String) (rest : List Token),
      parse_quote (fuel + 1) (Token.Number n :: rest) =
        .ok (.Number (parseBigInt n), rest)) ∧
    (∀ (fuel : Nat) (s : String) (rest : List Token),
      parse_quote (fuel + 1) (Token.Str s :: rest) = .ok (.Str s, rest)) ∧
    (∀ (fuel : Nat) (rest : List Token) (l : Object) (rest2 : List Token),
      parse_expr fuel rest Object.Nil = .ok (l, rest2) →
      parse_quote (fuel + 1) (Token.LeftParen :: rest) =
        .ok (.cons (.Symbol "quote") (.cons l .Nil), rest2)) ∧
    (∀ (fuel : Nat) (b : Bool) (rest : List Token),
      parse_quote (fuel + 1) (Token.Bool b :: rest) = .crashed) ∧
    (∀ (fuel : Nat) (rest : List Token),
      parse_quote (fuel + 1) (Token.Nil :: rest) = .crashed) ∧
    (∀ (fuel : Nat) (rest : List Token),
      parse_quote (fuel + 1) (Token.Quote :: rest) = .crashed) ∧
    (∀ (fuel : Nat) (rest : List Token),
      parse_quote (fuel + 1) (Token.RightParen :: rest) = .crashed) ∧
    (∀ fuel : Nat, parse_quote (fuel + 1) [] = .crashed) := by
  refine ⟨?_, ?_, ?_, ?_, ?_, ?_, ?_, ?_, ?_⟩ <;>
    intros <;> simp_all [parse_quote]

/-- C3 (witness): the amended theorem's list case at the token stream
`( )`, whose inner list is `()` read in one unit of fuel. -/
theorem parse_quote_amended_witness :
    parse_quote 2 [Token.LeftParen, Token.RightParen] =
      .ok (.cons (.Symbol "quote") (.cons Object.Nil .Nil), []) :=
  parse_quote_amended.2.2.2.1 1 [Token.RightParen] Object.Nil [] (by decide)

/-! ## C4: error surfacing -/

/-- C4 (counterexample): a disallowed character where a token could start
(`,`) and a `RightParen` at top level both `panic!` — the process aborts —
instead of returning any of the three `Err(ParseError)` values to the
caller. -/
theorem stray_input_panics_not_err :
    lexRun "," = PRes.crashed ∧
    buildAST [Token.RightParen] = PRes.crashed ∧
    (PRes.crashed : PRes (List Token)) ≠ PRes.err ParseError.EOF ∧
    (PRes.crashed : PRes (List Token)) ≠ PRes.err ParseError.Input ∧
    (PRes.crashed : PRes (List Token)) ≠ PRes.err ParseError.Token := by
  refine ⟨?_, ?_, ?_, ?_, ?_⟩ <;> decide

/-- C4 (amended): errors detected inside a token that has already started
(end of input inside a string, a disallowed character inside a number or a
symbol, a disallowed character after `#`) are returned to the caller as
`Err(ParseError)` — with no source position, since `ParseError` is a
fieldless enum — but a disallowed character where a token could start
panics in `Parser::_parse`, and a `RightParen` at top level panics in
`Token::build_ast`. -/
theorem error_surfacing_amended :
    lexRun "\"ab" = .err .EOF ∧
    lexRun "9," = .err .Input ∧
    lexRun "x," = .err .Input ∧
    lexRun "#x" = .err .Input ∧
    lexRun "," = .crashed ∧
    buildAST [Token.RightParen] = .crashed := by
  refine ⟨?_, ?_, ?_, ?_, ?_, ?_⟩ <;> decide

/-! ## C5: symbol termination and the nil token -/

/-- C5 (counterexample): the standalone input `nil` terminated by end of
input is emitted as `Symbol("nil")`, not as the `Nil` token (only the
whitespace and close-paren exits of `parse_symbol` reclassify); and a `(`
terminating a symbol is `Err(Input)` rather than being re-emitted the way
`parse_number` re-emits it. -/
theorem eof_nil_lexes_as_symbol :
    lexRun "nil" = PRes.ok [Token.Symbol "nil"] ∧
    Token.Symbol "nil" ≠ Token.Nil ∧
    lexRun "x(" = PRes.err ParseError.Input ∧
    lexRun "9(" = PRes.ok [Token.Number "9", Token.LeftParen] := by
  refine ⟨?_, ?_, ?_, ?_⟩ <;> decide

/-- C5 (amended): a symbol token ends at `)` (re-emitted as its own token,
like numbers), at whitespace (consumed, like numbers) and at end of input;
unlike numbers, a terminating `(` is an `Err(Input)` rather than being
re-emitted.  The literal symbol `nil` is reclassified as the `Nil` token at
the whitespace and `)` exits only; the end-of-input exit emits
`Symbol("nil")`. -/
theorem symbol_termination_amended :
    (∀ (rest : List Char) (buf : String),
      parse_symbol (')' :: rest) buf = .ok ([nilOrSymbol buf, .RightParen], rest)) ∧
    (∀ (rest : List Char) (buf : String) (c : Char), isWs c = true →
      parse_symbol (c :: rest) buf = .ok ([nilOrSymbol buf], rest)) ∧
    (∀ buf : String, parse_symbol [] buf = .ok ([.Symbol buf], [])) ∧
    (∀ (rest : List Char) (buf : String),
      parse_symbol ('(' :: rest) buf = .err .Input) ∧
    nilOrSymbol "nil" = Token.Nil ∧
    (∀ s : String, s ≠ "nil" → nilOrSymbol s = .Symbol s) ∧
    (∀ (rest : List Char) (buf : String),
      parse_number (')' :: rest) buf = .ok ([.Number buf, .RightParen], rest)) ∧
    (∀ (rest : List Char) (buf : String),
      parse_number ('(' :: rest) buf = .ok ([.Number buf, .LeftParen], rest)) := by
  refine ⟨?_, ?_, ?_, ?_, by decide, ?_, ?_, ?_⟩
  · intro rest buf
    simp [parse_symbol, is_symbol_char, isWs, isDigit]
  · intro rest buf c h
    simp only [isWs, Bool.or_eq_true, decide_eq_true_eq] at h
    rcases h with ((h | h) | h) | h <;> subst h <;>
      simp [parse_symbol, is_symbol_char, isWs, isDigit]
  · intro buf
    rfl
  · intro rest buf
    simp [parse_symbol, is_symbol_char, isWs, isDigit]
  · intro s hs
    simp [nilOrSymbol, hs]
  · intro rest buf
    simp [parse_number, isWs, isDigit]
  · intro rest buf
    simp [parse_number, isWs, isDigit]

/-- C5 (witness): the amended theorem's whitespace exit at `buf = "nil"`
with a single space left, where the reclassification fires. -/
theorem symbol_termination_amended_witness :
    parse_symbol [' '] "nil" = .ok ([nilOrSymbol "nil"], []) ∧
    nilOrSymbol "nil" = Token.Nil :=
  ⟨symbol_termination_amended.2.1 [] "nil" ' ' (by decide),
   symbol_termination_amended.2.2.2.2.1⟩

/-! ## Environments (src/environment.rs)

`Environment` is `Rc<RefCell<_Environment>>`: a shared, mutable frame with
an optional parent `Environment`.  The model uses an explicit store
(a list of frames) addressed by handles, so duplicated handles observe one
another's mutations exactly as `Rc` clones do; `extend` appends a fresh
frame whose parent is an existing (smaller) handle, which is the
well-formedness `wfStore` states.  `bindings` is the `HashMap<String,
Object>`, modelled as an association list with insert-or-replace. -/

structure Frame where
  bindings : List (String × Object)
  parent : Option Nat
deriving DecidableEq

abbrev Store := List Frame

def findBinding : List (String × Object) → String → Option Object
  | [], _ => none
  | (k, w) :: t, n => if k = n then some w else findBinding t n

def insertBinding : List (String × Object) → String → Object → List (String × Object)
  | [], n, v => [(n, v)]
  | (k, w) :: t, n, v =>
    if k = n then (k, v) :: t else (k, w) :: insertBinding t n v

/-- `Environment::new()`: a fresh empty root frame; returns the grown
store and the new handle. -/
def Env.new (s : Store) : Store × Nat := (s ++ [⟨[], none⟩], s.length)

/-- `Environment::extend(&self)`: a fresh empty frame whose parent is the
receiver. -/
def Env.extend (s : Store) (h : Nat) : Store × Nat :=
  (s ++ [⟨[], some h⟩], s.length)

/-- `Environment::define_variable`: insert into the receiver frame only. -/
def Env.define_variable (s : Store) (h : Nat) (n : String) (v : Object) : Store :=
  match s[h]? with
  | none => s
  | some f => s.set h ⟨insertBinding f.bindings n v, f.parent⟩

/-- `_Environment::lookup_variable_value`: own bindings first, then the
parent chain.  The recursion through `Rc` parents is paid for with fuel;
`h + 1` units suffice for any well-formed store since parents have smaller
handles. -/
def Env.lookupAux (s : Store) (n : String) : Nat → Nat → Option Object
  | 0, _ => none
  | fuel + 1, h =>
    match s[h]? with
    | none => none
    | some f =>
      match findBinding f.bindings n with
      | some v => some v
      | none =>
        match f.parent with
        | some p => Env.lookupAux s n fuel p
        | none => none

def Env.lookup_variable_value (s : Store) (h : Nat) (n : String) : Option Object :=
  Env.lookupAux s n (h + 1) h

/-- The scope chain from a handle to the root, leaf first. -/
def Env.chainAux (s : Store) : Nat → Nat → List Frame
  | 0, _ => []
  | fuel + 1, h =>
    match s[h]? with
    | none => []
    | some f =>
      f :: (match f.parent with
            | some p => Env.chainAux s fuel p
            | none => [])

def Env.chain (s : Store) (h : Nat) : List Frame := Env.chainAux s (h + 1) h

/-- The binding for `n` installed in the scope nearest the leaf. -/
def firstInChain : List Frame → String → Option Object
  | [], _ => none
  | f :: t, n =>
    match findBinding f.bindings n with
    | some v => some v
    | none => firstInChain t n

/-- Parents point strictly downwards in the store (true of every store
built with `Env.new`/`Env.extend`/`Env.define_variable`). -/
def wfFrom : Nat → Store → Bool
  | _, [] => true
  | i, f :: t =>
    (match f.parent with
     | some p => decide (p < i)
     | none => true) && wfFrom (i + 1) t

def wfStore (s : Store) : Bool := wfFrom 0 s

theorem wfFrom_spec :
    ∀ (s : Store) (i j : Nat) (f : Frame) (p : Nat), wfFrom i s = true →
      s[j]? = some f → f.parent = some p → p < i + j := by
  intro s
  induction s with
  | nil => intro i j f p _ hj; simp at hj
  | cons f0 t ih =>
    intro i j f p hwf hj hp
    simp only [wfFrom, Bool.and_eq_true] at hwf
    cases j with
    | zero =>
      simp only [List.getElem?_cons_zero, Option.some.injEq] at hj
      subst hj
      rw [hp] at hwf
      have := hwf.1
      simp at this
      omega
    | succ j' =>
      simp only [List.getElem?_cons_succ] at hj
      have := ih (i + 1) j' f p hwf.2 hj hp
      omega

theorem firstInChain_none (frames : List Frame) (n : String) :
    firstInChain frames n = none ↔
      ∀ f ∈ frames, findBinding f.bindings n = none := by
  induction frames with
  | nil => simp [firstInChain]
  | cons f t ih =>
    simp only [firstInChain, List.mem_cons]
    cases hf : findBinding f.bindings n with
    | none => simp [ih, hf]
    | some v =>
      simp only []
      constructor
      · intro h; cases h
      · intro h
        have := h f (Or.inl rfl)
        rw [hf] at this
        cases this

theorem lookupAux_eq_firstInChain (s : Store) (n : String)
    (hwf : wfStore s = true) :
    ∀ (fuel h : Nat), h < fuel →
      Env.lookupAux s n fuel h = firstInChain (Env.chainAux s fuel h) n := by
  intro fuel
  induction fuel with
  | zero => intro h hh; omega
  | succ f ih =>
    intro h hh
    show Env.lookupAux s n (f + 1) h = firstInChain (Env.chainAux s (f + 1) h) n
    rw [Env.lookupAux, Env.chainAux]
    cases hg : s[h]? with
    | none => rfl
    | some fr =>
      simp only []
      cases hfb : findBinding fr.bindings n with
      | some v => simp [firstInChain, hfb]
      | none =>
        cases hp : fr.parent with
        | none => simp [firstInChain, hfb]
        | some p =>
          have hlt : p < h := by
            have := wfFrom_spec s 0 h fr p hwf hg hp
            omega
          simp only [firstInChain, hfb]
          exact ih p (by omega)

/-- The concrete shadowing scenario of the claim, built through the public
API: a root (handle 0) with `x = 1`, extended by a child (handle 1) with
`x = 2`. -/
def shadowStore : Store :=
  let s1 := (Env.new []).1
  let s2 := Env.define_variable s1 (Env.new []).2 "x" (Object.Number 1)
  let s3 := (Env.extend s2 (Env.new []).2).1
  Env.define_variable s3 (Env.extend s2 (Env.new []).2).2 "x" (Object.Number 2)

/-! ## C7: lookup returns the binding nearest the leaf -/

/-- C7: in any well-formed store, `lookup_variable_value` returns exactly
the first binding found walking the scope chain from the leaf towards the
root, and returns `none` exactly when no scope in the chain binds the
name; in the concrete scenario `define(env,"x",1); child = extend(env);
define(child,"x",2)` the child sees `2` and the root still sees `1`. -/
theorem env_lookup_nearest_scope :
    (∀ (s : Store) (h : Nat) (n : String), wfStore s = true →
      Env.lookup_variable_value s h n = firstInChain (Env.chain s h) n ∧
      (Env.lookup_variable_value s h n = none ↔
        ∀ f ∈ Env.chain s h, findBinding f.bindings n = none)) ∧
    Env.lookup_variable_value shadowStore 1 "x" = some (Object.Number 2) ∧
    Env.lookup_variable_value shadowStore 0 "x" = some (Object.Number 1) := by
  refine ⟨?_, by decide, by decide⟩
  intro s h n hwf
  have he : Env.lookup_variable_value s h n = firstInChain (Env.chain s h) n :=
    lookupAux_eq_firstInChain s n hwf (h + 1) h (by omega)
  exact ⟨he, by rw [he]; exact firstInChain_none _ n⟩

/-- C7 (witness): the general part applied to the concrete shadowing
store at the child handle. -/
theorem env_lookup_nearest_scope_witness :
    Env.lookup_variable_value shadowStore 1 "x" =
      firstInChain (Env.chain shadowStore 1) "x" :=
  (env_lookup_nearest_scope.1 shadowStore 1 "x" (by decide)).1

/-! ## C9: environment equality is constantly false -/

/-- `impl PartialEq for _Environment { fn eq(&self, _other: &Self) -> bool
{ false } }`. -/
def envInnerEq (_self _other : Frame) : Bool := false

/-- The derived `PartialEq` of `Environment`: compare the `Rc<RefCell<..>>`
contents, i.e. dereference both handles and compare the `_Environment`s
(there is no pointer-equality shortcut, because `_Environment` is not
`Eq`). -/
def Env.envEq (s : Store) (h1 h2 : Nat) : Bool :=
  match s[h1]?, s[h2]? with
  | some f1, some f2 => envInnerEq f1 f2
  | _, _ => false

/-- C9: comparing any two Environments — any two handles into any store,
the same handle twice included — returns `false`. -/
theorem environment_eq_always_false :
    ∀ (s : Store) (h1 h2 : Nat),
      Env.envEq s h1 h2 = false ∧ Env.envEq s h1 h1 = false := by
  intro s h1 h2
  constructor <;> (unfold Env.envEq; split <;> simp [envInnerEq])
